import Mathlib

/-!
Verification development for the depth-map photo particle pipeline.

The definitions below are a shallow embedding of the TypeScript source:
* `PerlinNoise` / `CurlNoise` from `src/utils/noise.ts`
  (seeded permutation table, 3-D gradient noise, curl of a three-octave
  scalar potential);
* `sampleDepth` / `sampleColor`, the particle-field builder inside
  `particleData`, and the per-frame update inside `useFrame`, all from
  `src/components/ThreeViewer.tsx`.

JavaScript numbers are modelled by `ℚ` (every numeric literal in the
relevant code is an exact decimal, and all of the claims are about exact
arithmetic relationships, not float rounding).  Array reads `a[i]` are
modelled by `List.getD` with default `0`; every theorem that relies on a
read stays inside the proven in-bounds range, so the default is never
exercised by a claim.  Division by zero, which in JavaScript produces
`NaN`/`Infinity` (a value that is *not* a number in `[0,1]`), is modelled
by `jsDiv : ℚ → ℚ → Option ℚ` returning `none` exactly when the
denominator is zero; this matters only in the particle-field builder,
whose `x / (sampleW - 1)` divides by zero when a sample dimension is 1.
-/

/-- `seededRandom`'s linear-congruential state update from `noise.ts`:
`state = (state * 9301 + 49297) % 233280`. -/
def lcgNext (s : ℕ) : ℕ := (s * 9301 + 49297) % 233280

/-- The destructuring swap `[p[i], p[j]] = [p[j], p[i]]` on the permutation
array: both reads happen before either write. -/
def swapAt (l : List ℕ) (i j : ℕ) : List ℕ :=
  (l.set i (l.getD j 0)).set j (l.getD i 0)

/-- The Fisher–Yates loop of the `PerlinNoise` constructor, counting the
loop variable `i` down from its first argument to `1`: at index `i` it
advances the LCG state, draws `j = ⌊random() * (i + 1)⌋`
(`= state * (i + 1) / 233280` in integer arithmetic, since
`random() = state / 233280`), and swaps entries `i` and `j`. -/
def shuffleFrom : ℕ → ℕ → List ℕ → List ℕ
  | 0, _, l => l
  | i + 1, s, l =>
      let s' := lcgNext s
      let j := s' * (i + 2) / 233280
      shuffleFrom i s' (swapAt l (i + 1) j)

/-- The `PerlinNoise` constructor: the identity table on `0..255` is
shuffled with the seeded LCG and then duplicated
(`permutation = [...permutation, ...permutation]`), giving 512 entries. -/
def buildPermutation (seed : ℕ) : List ℕ :=
  let shuffled := shuffleFrom 255 seed (List.range 256)
  shuffled ++ shuffled

/-- A read `this.permutation[i]` from the table. -/
def permAt (p : List ℕ) (i : ℕ) : ℕ := p.getD i 0

/-- The lattice-coordinate computation `Math.floor(x) & 255` of
`PerlinNoise.noise`.  JavaScript's `&` converts to a 32-bit integer and
masks the low 8 bits, which for every finite argument equals the
mathematical residue mod 256 (`256` divides `2^32`). -/
def latticeIndex (x : ℚ) : ℕ := (⌊x⌋ % 256).toNat

/-- The quintic fade curve `t*t*t*(t*(t*6-15)+10)`. -/
def fade (t : ℚ) : ℚ := t * t * t * (t * (t * 6 - 15) + 10)

/-- Linear interpolation `a + t*(b-a)`. -/
def lerp (t a b : ℚ) : ℚ := a + t * (b - a)

/-- The gradient dot-product selector of `PerlinNoise.grad`. -/
def grad (hash : ℕ) (x y z : ℚ) : ℚ :=
  let h := hash &&& 15
  let u := if h < 8 then x else y
  let v := if h < 4 then y else if h = 12 ∨ h = 14 then x else z
  (if h &&& 1 = 0 then u else -u) + (if h &&& 2 = 0 then v else -v)

/-- `PerlinNoise.noise(x, y, z)` over a permutation table `p`: lattice
coordinates masked into `[0,255]`, fractional parts faded, and the eight
corner gradients combined by trilinear interpolation. -/
def noise (p : List ℕ) (x y z : ℚ) : ℚ :=
  let X := latticeIndex x
  let Y := latticeIndex y
  let Z := latticeIndex z
  let xf := x - ⌊x⌋
  let yf := y - ⌊y⌋
  let zf := z - ⌊z⌋
  let u := fade xf
  let v := fade yf
  let w := fade zf
  let A := permAt p X + Y
  let AA := permAt p A + Z
  let AB := permAt p (A + 1) + Z
  let B := permAt p (X + 1) + Y
  let BA := permAt p B + Z
  let BB := permAt p (B + 1) + Z
  lerp w
    (lerp v
      (lerp u (grad (permAt p AA) xf yf zf) (grad (permAt p BA) (xf - 1) yf zf))
      (lerp u (grad (permAt p AB) xf (yf - 1) zf) (grad (permAt p BB) (xf - 1) (yf - 1) zf)))
    (lerp v
      (lerp u (grad (permAt p (AA + 1)) xf yf (zf - 1)) (grad (permAt p (BA + 1)) (xf - 1) yf (zf - 1)))
      (lerp u (grad (permAt p (AB + 1)) xf (yf - 1) (zf - 1)) (grad (permAt p (BB + 1)) (xf - 1) (yf - 1) (zf - 1))))

/-- The state of a `PerlinNoise` instance: its only field is the
permutation table (`private permutation: number[]`). -/
structure PerlinGen where
  perm : List ℕ
deriving DecidableEq

/-- `new PerlinNoise(seed)`. -/
def mkPerlin (seed : ℕ) : PerlinGen := ⟨buildPermutation seed⟩

/-- State-transformer semantics of a call `gen.noise(x, y, z)`: the method
body only reads `this.permutation` (it contains no assignment to any field),
so the instance state is threaded through unchanged next to the returned
value. -/
def noiseCall (g : PerlinGen) (x y z : ℚ) : ℚ × PerlinGen :=
  (noise g.perm x y z, g)

/-- Run a sequence of `noise` calls against one generator instance,
threading the instance state from call to call and collecting results. -/
def runCalls (g : PerlinGen) : List (ℚ × ℚ × ℚ) → List ℚ × PerlinGen
  | [] => ([], g)
  | c :: cs =>
      let r := noiseCall g c.1 c.2.1 c.2.2
      let rest := runCalls r.2 cs
      (r.1 :: rest.1, rest.2)

/-- `CurlNoise.potential`: three octaves of the scalar noise at doubling
frequency and halving amplitude (`1.0`, `0.5`, `0.25`). -/
def potential (p : List ℕ) (x y z : ℚ) : ℚ :=
  noise p (x * 1) (y * 1) (z * 1) * 1 +
  noise p (x * 2) (y * 2) (z * 2) * (1/2) +
  noise p (x * 4) (y * 4) (z * 4) * (1/4)

/-- The default value of `CurlNoise.curl`'s `epsilon` parameter
(`epsilon = 0.0001` in the declaration). -/
def curlDefaultEpsilon : ℚ := 1/10000

/-- `CurlNoise.curl(x, y, z, epsilon)`: symmetric finite cross-differences
of the scalar potential, combined into the three curl components exactly as
in the source (note the source divides the `x` component by `2*dy` and
`2*dz`, the `y` component by `2*dz` and `2*dx`, and the `z` component by
`2*dx` and `2*dy`, with `dx = dy = dz = epsilon`). -/
def curl (p : List ℕ) (x y z ε : ℚ) : ℚ × ℚ × ℚ :=
  let dx := ε
  let dy := ε
  let dz := ε
  let p_dx := potential p (x + dx) y z
  let n_dx := potential p (x - dx) y z
  let p_dy := potential p x (y + dy) z
  let n_dy := potential p x (y - dy) z
  let p_dz := potential p x y (z + dz)
  let n_dz := potential p x y (z - dz)
  let x_comp := (p_dz - n_dz) / (2 * dy) - (p_dy - n_dy) / (2 * dz)
  let y_comp := (p_dx - n_dx) / (2 * dz) - (p_dz - n_dz) / (2 * dx)
  let z_comp := (p_dy - n_dy) / (2 * dx) - (p_dx - n_dx) / (2 * dy)
  (x_comp, y_comp, z_comp)

/-- A call `curl(x, y, z)` that lets the `epsilon` parameter take its
declared default `0.0001`. -/
def curlDefault (p : List ℕ) (x y z : ℚ) : ℚ × ℚ × ℚ :=
  curl p x y z curlDefaultEpsilon

/-- Central-difference estimate, with step `ε`, of the divergence
`∂Fx/∂x + ∂Fy/∂y + ∂Fz/∂z` of a vector field `F` at a point. -/
def divergenceCD (ε : ℚ) (F : ℚ → ℚ → ℚ → ℚ × ℚ × ℚ) (x y z : ℚ) : ℚ :=
  ((F (x + ε) y z).1 - (F (x - ε) y z).1) / (2 * ε) +
  ((F x (y + ε) z).2.1 - (F x (y - ε) z).2.1) / (2 * ε) +
  ((F x y (z + ε)).2.2 - (F x y (z - ε)).2.2) / (2 * ε)

/-- A rasterized image as the frame updater sees it: `ImageData` with a
flat row-major RGBA array (4 entries per pixel). -/
structure ImageData where
  width : ℕ
  height : ℕ
  data : List ℚ
deriving DecidableEq

/-- `sampleDepth(imageData, u, v)` from `ThreeViewer.tsx`: nearest lattice
cell by `floor(u * (width - 1))`, flat index `(y * width + x) * 4`, first
channel normalized by `255`.  (A negative index, which JavaScript would
answer with `undefined`, is modelled by the default read; every theorem
below keeps `u, v` in `[0,1]`, where the index is proven in bounds.) -/
def sampleDepth (img : ImageData) (u v : ℚ) : ℚ :=
  let x : ℤ := ⌊u * ((img.width : ℚ) - 1)⌋
  let y : ℤ := ⌊v * ((img.height : ℚ) - 1)⌋
  let index : ℤ := (y * img.width + x) * 4
  img.data.getD index.toNat 0 / 255

/-- `sampleColor(imageData, u, v)`: same lattice cell and flat index as
`sampleDepth`, returning the three color channels normalized by `255`. -/
def sampleColor (img : ImageData) (u v : ℚ) : ℚ × ℚ × ℚ :=
  let x : ℤ := ⌊u * ((img.width : ℚ) - 1)⌋
  let y : ℤ := ⌊v * ((img.height : ℚ) - 1)⌋
  let index : ℤ := (y * img.width + x) * 4
  (img.data.getD index.toNat 0 / 255,
   img.data.getD (index.toNat + 1) 0 / 255,
   img.data.getD (index.toNat + 2) 0 / 255)

/-- Direct 2-D read of channel `c` of pixel `(x, y)` of an image, used to
state what the samplers return. -/
def pixelChannel (img : ImageData) (x y c : ℕ) : ℚ :=
  img.data.getD ((y * img.width + x) * 4 + c) 0

/-- JavaScript division as far as the particle-field builder exercises it:
`none` models the non-finite result (`NaN` or `±Infinity`) produced when
the denominator is zero; otherwise the exact quotient. -/
def jsDiv (a b : ℚ) : Option ℚ := if b = 0 then none else some (a / b)

/-- The base-UV grid built by `particleData` in `ThreeViewer.tsx`:
`sampleW = min(w, density)`, `sampleH = min(h, density)`, and a row-major
double loop (`y` outer, `x` inner) assigning
`baseU = x / (sampleW - 1)`, `baseV = y / (sampleH - 1)`. -/
def buildField (w h density : ℕ) : List (Option ℚ × Option ℚ) :=
  let sampleW := min w density
  let sampleH := min h density
  (List.range sampleH).flatMap fun y : ℕ =>
    (List.range sampleW).map fun x : ℕ =>
      (jsDiv (x : ℚ) ((sampleW : ℚ) - 1), jsDiv (y : ℚ) ((sampleH : ℚ) - 1))

/-- The aspect ratio computed by `particleData`: `aspect = w / h`. -/
def computeAspect (w h : ℕ) : ℚ := (w : ℚ) / (h : ℚ)

/-- The two noise kinds selectable per frame (`noiseType`). -/
inductive NoiseKind
  | perlin
  | curl
deriving DecidableEq

/-- The per-frame configuration read by the `useFrame` callback. -/
structure FrameParams where
  animateParticles : Bool
  noiseType : NoiseKind
  animationSpeed : ℚ
  noiseIntensity : ℚ
  displacementScale : ℚ
  aspect : ℚ
deriving DecidableEq

/-- The geometry attribute arrays: per particle a base UV pair, a position
triple, and a color triple. -/
structure Geometry where
  baseUVs : List (ℚ × ℚ)
  positions : List (ℚ × ℚ × ℚ)
  colors : List (ℚ × ℚ × ℚ)
deriving DecidableEq

/-- The epsilon the `useFrame` callback passes at its curl call site:
`noiseGenerators.curl.curl(u * 3, v * 3, time * 0.5, 0.01)`. -/
def frameCurlEpsilon : ℚ := 1/100

/-- The sampling coordinate computed by the `useFrame` body for one
particle: the base UV pair unchanged when animation is disabled, otherwise
the noise offsets (perlin: two decorrelated scalar noise samples; curl: the
x,y components of the curl at `frameCurlEpsilon`), each scaled by the
intensity, added to the base pair and clamped to `[0,1]` by
`max(0, min(1, ·))`.  `time` is the already speed-scaled elapsed time. -/
def sampleUV (perm : List ℕ) (p : FrameParams) (time u0 v0 : ℚ) : ℚ × ℚ :=
  if p.animateParticles then
    let off :=
      match p.noiseType with
      | NoiseKind.perlin =>
          (noise perm (u0 * 3) (v0 * 3) (time * (1/2)) * p.noiseIntensity,
           noise perm (u0 * 3 + 100) (v0 * 3 + 100) (time * (1/2)) * p.noiseIntensity)
      | NoiseKind.curl =>
          let c := curl perm (u0 * 3) (v0 * 3) (time * (1/2)) frameCurlEpsilon
          (c.1 * p.noiseIntensity, c.2.1 * p.noiseIntensity)
    (max 0 (min 1 (u0 + off.1)), max 0 (min 1 (v0 + off.2)))
  else
    (u0, v0)

/-- The body of the per-particle loop in `useFrame`: determine the sampling
coordinate, convert it to world position (`x = (u - 0.5) * aspect`,
`y = (v - 0.5) * -1`, `z = depth * displacementScale`), and sample the
color; returns the position and color written for that particle. -/
def updateParticle (perm : List ℕ) (depthImg colorImg : ImageData)
    (p : FrameParams) (time : ℚ) (b : ℚ × ℚ) : (ℚ × ℚ × ℚ) × (ℚ × ℚ × ℚ) :=
  let uv := sampleUV perm p time b.1 b.2
  let u := uv.1
  let v := uv.2
  let xPos := (u - 1/2) * p.aspect
  let yPos := (v - 1/2) * (-1)
  let depth := sampleDepth depthImg u v
  let zPos := depth * p.displacementScale
  let color := sampleColor colorImg u v
  ((xPos, yPos, zPos), color)

/-- One run of the `useFrame` callback: `time = elapsed * animationSpeed`;
the loop runs `i` over `positions.length / 3` particles, reads
`baseUVs[2i], baseUVs[2i+1]`, and overwrites position `i` and color `i`;
the base-UV attribute is never written. -/
def updateFrame (perm : List ℕ) (depthImg colorImg : ImageData)
    (p : FrameParams) (elapsed : ℚ) (g : Geometry) : Geometry :=
  let time := elapsed * p.animationSpeed
  let n := g.positions.length
  { baseUVs := g.baseUVs
    positions := (List.range n).map fun i =>
      (updateParticle perm depthImg colorImg p time (g.baseUVs.getD i (0, 0))).1
    colors := (List.range n).map fun i =>
      (updateParticle perm depthImg colorImg p time (g.baseUVs.getD i (0, 0))).2 }

/-- Fold a sequence of frame callbacks (one elapsed time per frame) over a
geometry. -/
def runFrames (perm : List ℕ) (depthImg colorImg : ImageData)
    (p : FrameParams) (ts : List ℚ) (g : Geometry) : Geometry :=
  ts.foldl (fun acc t => updateFrame perm depthImg colorImg p t acc) g

/-- The synthetic 2×2 RGBA image with four distinct pixel values used by
the sampler test: pixel `(0,0)` is `(10,11,12)`, `(1,0)` is `(20,21,22)`,
`(0,1)` is `(30,31,32)`, `(1,1)` is `(40,41,42)`. -/
def img2x2 : ImageData :=
  ⟨2, 2, [10, 11, 12, 255, 20, 21, 22, 255, 30, 31, 32, 255, 40, 41, 42, 255]⟩

/-- The 4×4 all-red color image of the end-to-end test: every pixel is
RGBA `(255, 0, 0, 255)`, so every sampled color normalizes to `(1,0,0)`. -/
def sceneColorImg : ImageData :=
  ⟨4, 4, (List.replicate 16 ([255, 0, 0, 255] : List ℚ)).flatten⟩

/-- The 4×4 constant-depth image of the end-to-end test: every depth
channel holds `255 · 0.5`, the exact encoding of depth `0.5` under the
sampler's `/255` normalization. -/
def sceneDepthImg : ImageData :=
  ⟨4, 4, (List.replicate 16 ([255/2, 255/2, 255/2, 255] : List ℚ)).flatten⟩

/-- The base-UV grid the builder produces at image 4×4 and density 4
(`sampleW = sampleH = 4`, `baseU = x/3`, `baseV = y/3`, row-major). -/
def sceneBaseUVs : List (ℚ × ℚ) :=
  [(0, 0), (1/3, 0), (2/3, 0), (1, 0),
   (0, 1/3), (1/3, 1/3), (2/3, 1/3), (1, 1/3),
   (0, 2/3), (1/3, 2/3), (2/3, 2/3), (1, 2/3),
   (0, 1), (1/3, 1), (2/3, 1), (1, 1)]

/-- The freshly built end-to-end geometry: base UVs from the 4×4 grid,
positions initialized to `0` and colors to `1` as in `particleData`. -/
def sceneGeometry : Geometry :=
  ⟨sceneBaseUVs, List.replicate 16 (0, 0, 0), List.replicate 16 (1, 1, 1)⟩

/-- The end-to-end frame parameters: animation disabled,
`displacementScale = 1`, `aspect = 1` (4/4). -/
def sceneParams : FrameParams := ⟨false, NoiseKind.perlin, 1, 1/10, 1, 1⟩

/-- One frame of the end-to-end test at elapsed time `t` (the noise table
is the seed-42 table the component constructs; it is unused because
animation is disabled). -/
def sceneOut (t : ℚ) : Geometry :=
  updateFrame (buildPermutation 42) sceneDepthImg sceneColorImg sceneParams t sceneGeometry

/-- The positions the end-to-end test expects: `x = (u - 0.5) · 1`,
`y = -(v - 0.5)`, `z = 0.5`, row-major over the 4×4 grid. -/
def sceneExpectedPositions : List (ℚ × ℚ × ℚ) :=
  [(-1/2, 1/2, 1/2), (-1/6, 1/2, 1/2), (1/6, 1/2, 1/2), (1/2, 1/2, 1/2),
   (-1/2, 1/6, 1/2), (-1/6, 1/6, 1/2), (1/6, 1/6, 1/2), (1/2, 1/6, 1/2),
   (-1/2, -1/6, 1/2), (-1/6, -1/6, 1/2), (1/6, -1/6, 1/2), (1/2, -1/6, 1/2),
   (-1/2, -1/2, 1/2), (-1/6, -1/2, 1/2), (1/6, -1/2, 1/2), (1/2, -1/2, 1/2)]

/-- The four grid values `{-0.5, -1/6, 1/6, 0.5}` each world coordinate of
the end-to-end test is expected to span. -/
def sceneSpan : List ℚ := [-1/2, -1/6, 1/6, 1/2]

/-! Helper lemmas (shared between several claims). -/

theorem updateParticle_time_of_disabled (perm : List ℕ) (dImg cImg : ImageData)
    (p : FrameParams) (h : p.animateParticles = false) (t t' : ℚ) (b : ℚ × ℚ) :
    updateParticle perm dImg cImg p t b = updateParticle perm dImg cImg p t' b := by
  simp [updateParticle, sampleUV, h]

theorem updateFrame_time_of_disabled (perm : List ℕ) (dImg cImg : ImageData)
    (p : FrameParams) (h : p.animateParticles = false) (t t' : ℚ) (g : Geometry) :
    updateFrame perm dImg cImg p t g = updateFrame perm dImg cImg p t' g := by
  unfold updateFrame
  refine congrArg₂ (fun a b => Geometry.mk g.baseUVs a b) ?_ ?_ <;>
    exact List.map_congr_left fun i _ => by
      rw [updateParticle_time_of_disabled perm dImg cImg p h
        (t * p.animationSpeed) (t' * p.animationSpeed)]

theorem updateFrame_updateFrame (perm : List ℕ) (dImg cImg : ImageData)
    (p : FrameParams) (t t' : ℚ) (g : Geometry) :
    updateFrame perm dImg cImg p t' (updateFrame perm dImg cImg p t g)
      = updateFrame perm dImg cImg p t' g := by
  unfold updateFrame
  simp

theorem runCalls_state (g : PerlinGen) (cs : List (ℚ × ℚ × ℚ)) :
    (runCalls g cs).2 = g := by
  induction cs generalizing g with
  | nil => rfl
  | cons c cs ih => simpa [runCalls, noiseCall] using ih g

/-! Claim theorems. -/

/-- C9: the per-frame update writes only the position and color buffers and
never the base-UV buffer, so the base coordinates are identical after one
frame and after any sequence of frames. -/
theorem frame_preserves_baseUV (perm : List ℕ) (dImg cImg : ImageData)
    (p : FrameParams) :
    (∀ t g, (updateFrame perm dImg cImg p t g).baseUVs = g.baseUVs) ∧
    (∀ ts g, (runFrames perm dImg cImg p ts g).baseUVs = g.baseUVs) := by
  refine ⟨fun t g => rfl, fun ts => ?_⟩
  induction ts with
  | nil => intro g; rfl
  | cons t ts ih =>
      intro g
      have h1 : runFrames perm dImg cImg p (t :: ts) g
          = runFrames perm dImg cImg p ts (updateFrame perm dImg cImg p t g) := rfl
      rw [h1, ih]
      rfl

/-- C8: with animation disabled the sampling coordinate of every particle
is its base coordinate, the frame update does not depend on the elapsed
time, and running the updater a second time (at any elapsed time) leaves
the position and color output of the first run unchanged. -/
theorem frame_disabled_identity (perm : List ℕ) (dImg cImg : ImageData)
    (kind : NoiseKind) (speed intensity scale aspect : ℚ)
    (t t' u0 v0 : ℚ) (g : Geometry) :
    sampleUV perm ⟨false, kind, speed, intensity, scale, aspect⟩ t u0 v0 = (u0, v0) ∧
    updateFrame perm dImg cImg ⟨false, kind, speed, intensity, scale, aspect⟩ t g
      = updateFrame perm dImg cImg ⟨false, kind, speed, intensity, scale, aspect⟩ t' g ∧
    updateFrame perm dImg cImg ⟨false, kind, speed, intensity, scale, aspect⟩ t'
        (updateFrame perm dImg cImg ⟨false, kind, speed, intensity, scale, aspect⟩ t g)
      = updateFrame perm dImg cImg ⟨false, kind, speed, intensity, scale, aspect⟩ t g := by
  refine ⟨by simp [sampleUV], updateFrame_time_of_disabled perm dImg cImg _ rfl t t' g, ?_⟩
  rw [updateFrame_updateFrame]
  exact updateFrame_time_of_disabled perm dImg cImg _ rfl t' t g

/-- C2: with animation enabled, for either noise kind and any intensity,
base coordinates and (speed-scaled) time, the sampling coordinates computed
by the frame updater are clamped into `[0,1]` on both axes. -/
theorem frame_uv_clamped (perm : List ℕ) (kind : NoiseKind)
    (speed intensity scale aspect : ℚ) (time u0 v0 : ℚ) :
    0 ≤ (sampleUV perm ⟨true, kind, speed, intensity, scale, aspect⟩ time u0 v0).1 ∧
    (sampleUV perm ⟨true, kind, speed, intensity, scale, aspect⟩ time u0 v0).1 ≤ 1 ∧
    0 ≤ (sampleUV perm ⟨true, kind, speed, intensity, scale, aspect⟩ time u0 v0).2 ∧
    (sampleUV perm ⟨true, kind, speed, intensity, scale, aspect⟩ time u0 v0).2 ≤ 1 := by
  simp only [sampleUV, if_pos]
  exact ⟨le_max_left _ _, max_le (by norm_num) (min_le_left _ _),
    le_max_left _ _, max_le (by norm_num) (min_le_left _ _)⟩

/-- C7: the finite-difference epsilon declared as the default of
`CurlNoise.curl` is `0.0001`, while the per-frame call site in `useFrame`
passes `0.01`; the two are different, a caller of the bare `curl(x,y,z)`
evaluates at `0.0001`, and the animated curl path evaluates at `0.01`. -/
theorem curl_epsilon_mismatch :
    curlDefaultEpsilon = 1/10000 ∧ frameCurlEpsilon = 1/100 ∧
    curlDefaultEpsilon ≠ frameCurlEpsilon ∧
    (∀ p x y z, curlDefault p x y z = curl p x y z (1/10000)) ∧
    (∀ (perm : List ℕ) (speed intensity scale aspect time u0 v0 : ℚ),
      sampleUV perm ⟨true, NoiseKind.curl, speed, intensity, scale, aspect⟩ time u0 v0 =
        (max 0 (min 1 (u0 +
          (curl perm (u0 * 3) (v0 * 3) (time * (1/2)) frameCurlEpsilon).1 * intensity)),
         max 0 (min 1 (v0 +
          (curl perm (u0 * 3) (v0 * 3) (time * (1/2)) frameCurlEpsilon).2.1 * intensity)))) := by
  refine ⟨rfl, rfl, by norm_num [curlDefaultEpsilon, frameCurlEpsilon],
    fun p x y z => rfl, fun perm speed intensity scale aspect time u0 v0 => ?_⟩
  simp [sampleUV]

/-- C5: the scalar noise is deterministic and pure — a `noise` call leaves
the generator state (the permutation table, the instance's only field)
unchanged, any sequence of calls leaves it unchanged, and the value
returned for a given seed and input is the same no matter which calls
preceded it: it is always `noise` of the constructed table at that input. -/
theorem noise_pure_deterministic (seed : ℕ) (x y z : ℚ) (g : PerlinGen)
    (cs cs1 cs2 : List (ℚ × ℚ × ℚ)) :
    (noiseCall g x y z).2 = g ∧
    (runCalls (mkPerlin seed) cs).2 = mkPerlin seed ∧
    (noiseCall (runCalls (mkPerlin seed) cs1).2 x y z).1
      = (noiseCall (runCalls (mkPerlin seed) cs2).2 x y z).1 ∧
    (noiseCall (runCalls (mkPerlin seed) cs1).2 x y z).1
      = noise (buildPermutation seed) x y z := by
  refine ⟨rfl, runCalls_state _ cs, ?_, ?_⟩
  · rw [runCalls_state, runCalls_state]
  · rw [runCalls_state]
    rfl

/-- C6: the curl field is divergence-free — the central-difference estimate
of the divergence of `curl` (taken with the same step as the curl's own
finite differences) is exactly `0` at every point, for every permutation
table and every nonzero epsilon; in particular it is within the `1e-3`
tolerance. -/
theorem curl_divergence_zero (p : List ℕ) (x y z ε : ℚ) (hε : ε ≠ 0) :
    divergenceCD ε (fun a b c => curl p a b c ε) x y z = 0 ∧
    |divergenceCD ε (fun a b c => curl p a b c ε) x y z| ≤ 1/1000 := by
  have h2 : (2:ℚ) * ε ≠ 0 := mul_ne_zero two_ne_zero hε
  have h0 : divergenceCD ε (fun a b c => curl p a b c ε) x y z = 0 := by
    unfold divergenceCD curl
    field_simp
    ring
  exact ⟨h0, by rw [h0]; norm_num⟩

/-- Witness for C6 at the seed-42 table, the per-frame epsilon `0.01`, and
a concrete sample point. -/
theorem curl_divergence_zero_witness :
    ((1:ℚ)/100) ≠ 0 ∧
    divergenceCD (1/100) (fun a b c => curl (buildPermutation 42) a b c (1/100))
      (3/10) (2/5) (1/2) = 0 :=
  ⟨by norm_num,
   (curl_divergence_zero (buildPermutation 42) (3/10) (2/5) (1/2) (1/100) (by norm_num)).1⟩

/-- Bounds on the nearest-cell coordinate `floor(u * (n - 1))` for
`u ∈ [0,1]` and a dimension `n ≥ 1`. -/
theorem floor_coord_bounds (n : ℕ) (hn : 1 ≤ n) (u : ℚ) (h0 : 0 ≤ u) (h1 : u ≤ 1) :
    0 ≤ ⌊u * ((n : ℚ) - 1)⌋ ∧ ⌊u * ((n : ℚ) - 1)⌋ ≤ (n : ℤ) - 1 := by
  have hn' : (1 : ℚ) ≤ (n : ℚ) := by exact_mod_cast hn
  constructor
  · exact Int.floor_nonneg.mpr (mul_nonneg h0 (by linarith))
  · have hle : u * ((n : ℚ) - 1) ≤ (n : ℚ) - 1 := by nlinarith
    have hcast : ((n : ℚ) - 1) = (((n : ℤ) - 1 : ℤ) : ℚ) := by push_cast; ring
    calc ⌊u * ((n : ℚ) - 1)⌋ ≤ ⌊(n : ℚ) - 1⌋ := Int.floor_le_floor hle
      _ = (n : ℤ) - 1 := by rw [hcast, Int.floor_intCast]

/-- C4: for any image with `w, h ≥ 1`, a full `w*h` RGBA buffer and
`(u,v) ∈ [0,1]²`, both samplers read the pixel at
`(floor(u*(w-1)), floor(v*(h-1)))` — the computed cell is in range, the
flat index stays strictly inside the buffer (no wraparound), the depth
sampler returns that pixel's first channel normalized, and the color
sampler its three channels; in particular, on the 2×2 test image the
sample points `(0,0)`, `(0.99,0.99)` and `(0.5,0.5)` all land on the cell
the formula picks, pixel `(0,0)`. -/
theorem sampler_nearest_pixel (img : ImageData) (u v : ℚ)
    (hw : 1 ≤ img.width) (hh : 1 ≤ img.height)
    (hu0 : 0 ≤ u) (hu1 : u ≤ 1) (hv0 : 0 ≤ v) (hv1 : v ≤ 1)
    (hlen : img.data.length = img.width * img.height * 4) :
    (0 ≤ ⌊u * ((img.width : ℚ) - 1)⌋ ∧
      ⌊u * ((img.width : ℚ) - 1)⌋ ≤ (img.width : ℤ) - 1 ∧
      0 ≤ ⌊v * ((img.height : ℚ) - 1)⌋ ∧
      ⌊v * ((img.height : ℚ) - 1)⌋ ≤ (img.height : ℤ) - 1) ∧
    ((⌊v * ((img.height : ℚ) - 1)⌋ * img.width + ⌊u * ((img.width : ℚ) - 1)⌋) * 4).toNat + 3
        < img.data.length ∧
    sampleDepth img u v
      = pixelChannel img (⌊u * ((img.width : ℚ) - 1)⌋).toNat
          (⌊v * ((img.height : ℚ) - 1)⌋).toNat 0 / 255 ∧
    sampleColor img u v
      = (pixelChannel img (⌊u * ((img.width : ℚ) - 1)⌋).toNat
           (⌊v * ((img.height : ℚ) - 1)⌋).toNat 0 / 255,
         pixelChannel img (⌊u * ((img.width : ℚ) - 1)⌋).toNat
           (⌊v * ((img.height : ℚ) - 1)⌋).toNat 1 / 255,
         pixelChannel img (⌊u * ((img.width : ℚ) - 1)⌋).toNat
           (⌊v * ((img.height : ℚ) - 1)⌋).toNat 2 / 255) ∧
    (sampleColor img2x2 0 0 = (10/255, 11/255, 12/255) ∧
     sampleColor img2x2 (99/100) (99/100) = (10/255, 11/255, 12/255) ∧
     sampleColor img2x2 (1/2) (1/2) = (10/255, 11/255, 12/255) ∧
     sampleDepth img2x2 0 0 = 10/255 ∧
     sampleDepth img2x2 (99/100) (99/100) = 10/255 ∧
     sampleDepth img2x2 (1/2) (1/2) = 10/255) := by
  obtain ⟨hx0, hx1⟩ := floor_coord_bounds img.width hw u hu0 hu1
  obtain ⟨hy0, hy1⟩ := floor_coord_bounds img.height hh v hv0 hv1
  set xi := ⌊u * ((img.width : ℚ) - 1)⌋ with hxidef
  set yi := ⌊v * ((img.height : ℚ) - 1)⌋ with hyidef
  have hw' : (1 : ℤ) ≤ (img.width : ℤ) := by exact_mod_cast hw
  have hh' : (1 : ℤ) ≤ (img.height : ℤ) := by exact_mod_cast hh
  have hidx0 : 0 ≤ yi * (img.width : ℤ) + xi :=
    add_nonneg (mul_nonneg hy0 (by linarith)) hx0
  have hkey : (yi * (img.width : ℤ) + xi) * 4 + 3
      < ((img.width * img.height * 4 : ℕ) : ℤ) := by
    push_cast
    nlinarith
  have hinb : ((yi * (img.width : ℤ) + xi) * 4).toNat + 3 < img.data.length := by
    rw [hlen]
    set t : ℤ := (yi * (img.width : ℤ) + xi) * 4 with htdef
    have ht0 : 0 ≤ t := by positivity
    set s : ℕ := img.width * img.height * 4 with hsdef
    omega
  have hflat : ((yi * (img.width : ℤ) + xi) * 4).toNat
      = (yi.toNat * img.width + xi.toNat) * 4 := by
    have h1 : (yi.toNat : ℤ) = yi := Int.toNat_of_nonneg hy0
    have h2 : (xi.toNat : ℤ) = xi := Int.toNat_of_nonneg hx0
    have h3 : (yi * (img.width : ℤ) + xi) * 4
        = (((yi.toNat * img.width + xi.toNat) * 4 : ℕ) : ℤ) := by
      push_cast [h1, h2]
      ring
    rw [h3, Int.toNat_ofNat]
  refine ⟨⟨hx0, hx1, hy0, hy1⟩, hinb, ?_, ?_, ?_⟩
  · simp only [sampleDepth, pixelChannel, ← hxidef, ← hyidef]
    rw [hflat]
    norm_num
  · simp only [sampleColor, pixelChannel, ← hxidef, ← hyidef]
    rw [hflat]
    norm_num
  · refine ⟨?_, ?_, ?_, ?_, ?_, ?_⟩ <;> norm_num [sampleColor, sampleDepth, img2x2, Int.toNat]

/-- Witness for C4 on the 2×2 test image at `(u,v) = (0,0)`. -/
theorem sampler_nearest_pixel_witness :
    sampleDepth img2x2 0 0
      = pixelChannel img2x2 (⌊(0 : ℚ) * ((img2x2.width : ℚ) - 1)⌋).toNat
          (⌊(0 : ℚ) * ((img2x2.height : ℚ) - 1)⌋).toNat 0 / 255 :=
  (sampler_nearest_pixel img2x2 0 0 (by norm_num [img2x2]) (by norm_num [img2x2])
    (by norm_num) (by norm_num) (by norm_num) (by norm_num)
    (by norm_num [img2x2])).2.2.1

set_option maxHeartbeats 2000000 in
/-- Evaluation of the end-to-end frame: with animation disabled the output
is the same at every elapsed time, and equals the expected geometry. -/
theorem sceneOut_eq (t : ℚ) :
    sceneOut t = ⟨sceneBaseUVs, sceneExpectedPositions, List.replicate 16 (1, 0, 0)⟩ := by
  have ht : sceneOut t = sceneOut 0 :=
    updateFrame_time_of_disabled (buildPermutation 42) sceneDepthImg sceneColorImg
      sceneParams rfl t 0 sceneGeometry
  rw [ht]
  simp only [sceneOut]
  generalize buildPermutation 42 = P
  norm_num [updateFrame, updateParticle, sampleUV, sampleDepth, sampleColor,
    sceneDepthImg, sceneColorImg, sceneParams, sceneGeometry, sceneBaseUVs,
    sceneExpectedPositions, List.range_succ, List.replicate, Int.toNat]

theorem sceneOut_positions (t : ℚ) : (sceneOut t).positions = sceneExpectedPositions := by
  rw [sceneOut_eq]

theorem sceneOut_colors (t : ℚ) : (sceneOut t).colors = List.replicate 16 (1, 0, 0) := by
  rw [sceneOut_eq]

/-- C1: the frame updater turns the sampling coordinate `(u,v)` of every
particle into world position `x = (u - 0.5)·aspect`, `y = -(v - 0.5)`,
`z = depth(u,v)·displacementScale` and the color sampled at `(u,v)`; and in
the end-to-end 4×4 all-red, constant-depth-0.5, density-4, scale-1,
aspect-1, animation-disabled run, every particle's color is `(1,0,0)`,
every `z` is `0.5`, and the `x` and `y` coordinates each span exactly
`{-1/2, -1/6, 1/6, 1/2}`. -/
theorem frame_position_color_formulas :
    (∀ (perm : List ℕ) (dImg cImg : ImageData) (p : FrameParams) (time : ℚ) (b : ℚ × ℚ),
      updateParticle perm dImg cImg p time b
        = ((((sampleUV perm p time b.1 b.2).1 - 1/2) * p.aspect,
            -((sampleUV perm p time b.1 b.2).2 - 1/2),
            sampleDepth dImg (sampleUV perm p time b.1 b.2).1 (sampleUV perm p time b.1 b.2).2
              * p.displacementScale),
           sampleColor cImg (sampleUV perm p time b.1 b.2).1 (sampleUV perm p time b.1 b.2).2)) ∧
    computeAspect 4 4 = 1 ∧
    buildField 4 4 4 = sceneBaseUVs.map (fun q => (some q.1, some q.2)) ∧
    (∀ t : ℚ, (sceneOut t).colors = List.replicate 16 (1, 0, 0)) ∧
    (∀ t : ℚ, ∀ q ∈ (sceneOut t).positions, q.2.2 = 1/2) ∧
    (∀ t : ℚ, ∀ q ∈ (sceneOut t).positions, q.1 ∈ sceneSpan ∧ q.2.1 ∈ sceneSpan) ∧
    (∀ t : ℚ, ∀ a ∈ sceneSpan,
      (∃ q ∈ (sceneOut t).positions, q.1 = a) ∧ ∃ q ∈ (sceneOut t).positions, q.2.1 = a) := by
  refine ⟨?_, ?_, ?_, fun t => sceneOut_colors t, ?_, ?_, ?_⟩
  · intro perm dImg cImg p time b
    simp only [updateParticle, mul_neg_one]
  · norm_num [computeAspect]
  · norm_num [buildField, jsDiv, sceneBaseUVs, List.range_succ]
  · intro t q hq
    rw [sceneOut_positions] at hq
    simp only [sceneExpectedPositions] at hq
    fin_cases hq <;> norm_num
  · intro t q hq
    rw [sceneOut_positions] at hq
    simp only [sceneExpectedPositions] at hq
    fin_cases hq <;> norm_num [sceneSpan]
  · intro t a ha
    rw [sceneOut_positions]
    simp only [sceneSpan] at ha
    fin_cases ha
    · exact ⟨⟨(-1/2, -1/2, 1/2), by norm_num [sceneExpectedPositions], rfl⟩,
        ⟨(-1/2, -1/2, 1/2), by norm_num [sceneExpectedPositions], rfl⟩⟩
    · exact ⟨⟨(-1/6, -1/6, 1/2), by norm_num [sceneExpectedPositions], rfl⟩,
        ⟨(-1/6, -1/6, 1/2), by norm_num [sceneExpectedPositions], rfl⟩⟩
    · exact ⟨⟨(1/6, 1/6, 1/2), by norm_num [sceneExpectedPositions], rfl⟩,
        ⟨(1/6, 1/6, 1/2), by norm_num [sceneExpectedPositions], rfl⟩⟩
    · exact ⟨⟨(1/2, 1/2, 1/2), by norm_num [sceneExpectedPositions], rfl⟩,
        ⟨(1/2, 1/2, 1/2), by norm_num [sceneExpectedPositions], rfl⟩⟩

/-- Flattening a row-major double loop over a `sh × sw` grid: the `i`-th
element of the flattened list is the body at row `i / sw`, column `i % sw`. -/
theorem range_flatMap_grid {α : Type} (sh sw : ℕ) (f : ℕ → ℕ → α) :
    ((List.range sh).flatMap fun y => (List.range sw).map fun x => f y x)
      = (List.range (sh * sw)).map fun i => f (i / sw) (i % sw) := by
  rcases Nat.eq_zero_or_pos sw with hsw | hsw
  · subst hsw
    simp
  · induction sh with
    | zero => simp
    | succ n ih =>
        rw [List.range_succ, List.flatMap_append, ih, Nat.succ_mul, List.range_add,
          List.map_append]
        congr 1
        simp only [List.flatMap_cons, List.flatMap_nil, List.append_nil, List.map_map]
        apply List.map_congr_left
        intro x hx
        have hx' : x < sw := List.mem_range.mp hx
        have h1 : (n * sw + x) / sw = n := by
          rw [Nat.mul_comm n sw, Nat.mul_add_div hsw, Nat.div_eq_of_lt hx', Nat.add_zero]
        have h2 : (n * sw + x) % sw = x := by
          rw [Nat.mul_comm n sw, Nat.mul_add_mod, Nat.mod_eq_of_lt hx']
        simp [Function.comp, h1, h2]

/-- The particle field, written as one row-major indexed list. -/
theorem buildField_eq_grid (w h d : ℕ) :
    buildField w h d
      = (List.range (min h d * min w d)).map fun i : ℕ =>
          (jsDiv ((i % min w d : ℕ) : ℚ) (((min w d : ℕ) : ℚ) - 1),
           jsDiv ((i / min w d : ℕ) : ℚ) (((min h d : ℕ) : ℚ) - 1)) := by
  simp only [buildField]
  exact range_flatMap_grid (min h d) (min w d) _

/-- The particle count is `min(w,d) * min(h,d)` for every input. -/
theorem buildField_length (w h d : ℕ) :
    (buildField w h d).length = min w d * min h d := by
  rw [buildField_eq_grid]
  simp [Nat.mul_comm]

/-- C3 counterexample: at a 1×1 image (width and height ≥ 1, density 256)
the single particle's base coordinates are the result of the division
`0 / 0` — in JavaScript `NaN`, here `none` — so they are not numbers in
`[0,1]`: the claim's "base coordinates lie in [0,1]" fails as stated. -/
theorem buildField_nan_at_one_pixel :
    buildField 1 1 256 = [(none, none)] ∧
    ¬ (∀ q ∈ buildField 1 1 256, ∃ a b : ℚ,
        q = (some a, some b) ∧ 0 ≤ a ∧ a ≤ 1 ∧ 0 ≤ b ∧ b ≤ 1) := by
  have h : buildField 1 1 256 = [(none, none)] := by
    norm_num [buildField, jsDiv, List.range_succ]
  refine ⟨h, fun hall => ?_⟩
  obtain ⟨a, b, hab, -⟩ := hall (none, none) (by rw [h]; exact List.mem_singleton.mpr rfl)
  exact Option.noConfusion (congrArg Prod.fst hab)

/-- C3 (amended): the builder yields `sampleWidth = min(w, density)`,
`sampleHeight = min(h, density)`, exactly `sampleWidth * sampleHeight`
particles in row-major order with `baseU = x/(sampleWidth-1)`,
`baseV = y/(sampleHeight-1)`; when both sample dimensions are at least 2
every base coordinate is a number in `[0,1]` and consecutive columns step
by exactly `1/(sampleWidth-1)`; and `buildField 100 50 256` clamps to
`sampleWidth = 100`, `sampleHeight = 50` with exactly 5000 particles. -/
theorem buildField_grid_properties (w h d : ℕ) (hw : 2 ≤ min w d) (hh : 2 ≤ min h d) :
    buildField w h d
      = (List.range (min h d * min w d)).map (fun i : ℕ =>
          (jsDiv ((i % min w d : ℕ) : ℚ) (((min w d : ℕ) : ℚ) - 1),
           jsDiv ((i / min w d : ℕ) : ℚ) (((min h d : ℕ) : ℚ) - 1))) ∧
    (buildField w h d).length = min w d * min h d ∧
    (∀ q ∈ buildField w h d, ∃ a b : ℚ, q = (some a, some b) ∧
        0 ≤ a ∧ a ≤ 1 ∧ 0 ≤ b ∧ b ≤ 1) ∧
    (∀ x : ℕ, x + 1 < min w d →
        ∃ s s' : ℚ, jsDiv (x : ℚ) (((min w d : ℕ) : ℚ) - 1) = some s ∧
          jsDiv ((x + 1 : ℕ) : ℚ) (((min w d : ℕ) : ℚ) - 1) = some s' ∧
          s' - s = 1 / (((min w d : ℕ) : ℚ) - 1)) ∧
    ((buildField 100 50 256).length = 5000 ∧ min 100 256 = 100 ∧ min 50 256 = 50) := by
  have hswq : (2 : ℚ) ≤ ((min w d : ℕ) : ℚ) := by exact_mod_cast hw
  have hshq : (2 : ℚ) ≤ ((min h d : ℕ) : ℚ) := by exact_mod_cast hh
  have hswne : (((min w d : ℕ) : ℚ) - 1) ≠ 0 := by linarith
  have hshne : (((min h d : ℕ) : ℚ) - 1) ≠ 0 := by linarith
  refine ⟨buildField_eq_grid w h d, buildField_length w h d, ?_, ?_,
    ⟨by rw [buildField_length]; norm_num, by norm_num, by norm_num⟩⟩
  · intro q hq
    rw [buildField_eq_grid] at hq
    obtain ⟨i, hi, rfl⟩ := List.mem_map.mp hq
    have hi' : i < min h d * min w d := List.mem_range.mp hi
    have hswpos : 0 < min w d := by omega
    have hmod : i % min w d ≤ min w d - 1 := Nat.le_pred_of_lt (Nat.mod_lt i hswpos)
    have hdiv : i / min w d ≤ min h d - 1 :=
      Nat.le_pred_of_lt ((Nat.div_lt_iff_lt_mul hswpos).mpr hi')
    have hmodq : ((i % min w d : ℕ) : ℚ) ≤ ((min w d : ℕ) : ℚ) - 1 := by
      have hc := Nat.cast_le (α := ℚ) |>.mpr hmod
      rwa [Nat.cast_sub (by omega), Nat.cast_one] at hc
    have hdivq : ((i / min w d : ℕ) : ℚ) ≤ ((min h d : ℕ) : ℚ) - 1 := by
      have hc := Nat.cast_le (α := ℚ) |>.mpr hdiv
      rwa [Nat.cast_sub (by omega), Nat.cast_one] at hc
    refine ⟨((i % min w d : ℕ) : ℚ) / (((min w d : ℕ) : ℚ) - 1),
      ((i / min w d : ℕ) : ℚ) / (((min h d : ℕ) : ℚ) - 1),
      by simp only [jsDiv, if_neg hswne, if_neg hshne], ?_, ?_, ?_, ?_⟩
    · exact div_nonneg (Nat.cast_nonneg _) (by linarith)
    · exact (div_le_one (by linarith)).mpr hmodq
    · exact div_nonneg (Nat.cast_nonneg _) (by linarith)
    · exact (div_le_one (by linarith)).mpr hdivq
  · intro x hx
    refine ⟨(x : ℚ) / (((min w d : ℕ) : ℚ) - 1),
      ((x + 1 : ℕ) : ℚ) / (((min w d : ℕ) : ℚ) - 1),
      by simp only [jsDiv, if_neg hswne], by simp only [jsDiv, if_neg hswne], ?_⟩
    have hx1 : ((x + 1 : ℕ) : ℚ) = (x : ℚ) + 1 := by push_cast; ring
    rw [hx1, div_sub_div_same]
    norm_num

/-- Witness for C3 (amended) at `w = 100`, `h = 50`, `density = 256`. -/
theorem buildField_grid_properties_witness :
    2 ≤ min 100 256 ∧ 2 ≤ min 50 256 ∧
    (buildField 100 50 256).length = min 100 256 * min 50 256 :=
  ⟨by norm_num, by norm_num,
   (buildField_grid_properties 100 50 256 (by norm_num) (by norm_num)).2.1⟩

/-- A default-0 read from a list whose entries are all below 256 is below
256. -/
theorem getD_lt_256 {l : List ℕ} (h : ∀ a ∈ l, a < 256) (n : ℕ) : l.getD n 0 < 256 := by
  rcases hx : l.get? n with _ | a
  · rw [List.getD_eq_get?, hx]
    norm_num
  · rw [List.getD_eq_get?, hx]
    exact h a (List.get?_mem hx)

/-- Swapping two entries preserves the entry bound. -/
theorem swapAt_bound {l : List ℕ} (h : ∀ a ∈ l, a < 256) (i j : ℕ) :
    ∀ a ∈ swapAt l i j, a < 256 := by
  intro a ha
  simp only [swapAt] at ha
  rcases List.mem_or_eq_of_mem_set ha with ha' | rfl
  · rcases List.mem_or_eq_of_mem_set ha' with ha'' | rfl
    · exact h a ha''
    · exact getD_lt_256 h j
  · exact getD_lt_256 h i

/-- The shuffle loop preserves the entry bound. -/
theorem shuffleFrom_bound :
    ∀ (i s : ℕ) (l : List ℕ), (∀ a ∈ l, a < 256) → ∀ a ∈ shuffleFrom i s l, a < 256 := by
  intro i
  induction i with
  | zero => intro s l h; simpa [shuffleFrom] using h
  | succ n ih =>
      intro s l h
      simp only [shuffleFrom]
      exact ih _ _ (swapAt_bound h _ _)

/-- The shuffle loop preserves the table length. -/
theorem shuffleFrom_length :
    ∀ (i s : ℕ) (l : List ℕ), (shuffleFrom i s l).length = l.length := by
  intro i
  induction i with
  | zero => intro s l; rfl
  | succ n ih =>
      intro s l
      simp only [shuffleFrom]
      rw [ih]
      simp [swapAt]

/-- The constructed table has 512 entries. -/
theorem buildPermutation_length (seed : ℕ) : (buildPermutation seed).length = 512 := by
  simp [buildPermutation, shuffleFrom_length]

/-- Every entry of the constructed table is below 256. -/
theorem buildPermutation_bound (seed : ℕ) : ∀ a ∈ buildPermutation seed, a < 256 := by
  intro a ha
  have hbase : ∀ b ∈ List.range 256, b < 256 := fun b hb => List.mem_range.mp hb
  simp only [buildPermutation] at ha
  rcases List.mem_append.mp ha with h | h <;>
    exact shuffleFrom_bound 255 seed _ hbase a h

/-- Reads from the constructed table are at most 255, at any index. -/
theorem permAt_le_255 (seed i : ℕ) : permAt (buildPermutation seed) i ≤ 255 :=
  Nat.lt_succ_iff.mp (getD_lt_256 (buildPermutation_bound seed) i)

/-- The masked lattice coordinate is at most 255 for every rational. -/
theorem latticeIndex_le_255 (x : ℚ) : latticeIndex x ≤ 255 := by
  simp only [latticeIndex]
  have h1 : 0 ≤ ⌊x⌋ % 256 := Int.emod_nonneg _ (by norm_num)
  have h2 : ⌊x⌋ % 256 < 256 := Int.emod_lt_of_pos _ (by norm_num)
  omega

/-- C10: every permutation-table access in `noise` is in bounds — for every
seed and every input, the table has 512 entries (256 shuffled entries
duplicated), the masked lattice coordinates are at most 255, every table
read is at most 255, and each of the six derived indices `A+1`, `B+1`,
`AA+1`, `AB+1`, `BA+1`, `BB+1` (hence also `A`, `B`, `AA`, `AB`, `BA`,
`BB`) is below 512. -/
theorem noise_table_access_in_bounds (seed : ℕ) (x y z : ℚ) :
    (buildPermutation seed).length = 512 ∧
    (∃ l : List ℕ, l.length = 256 ∧ buildPermutation seed = l ++ l) ∧
    latticeIndex x ≤ 255 ∧ latticeIndex y ≤ 255 ∧ latticeIndex z ≤ 255 ∧
    (∀ i, permAt (buildPermutation seed) i ≤ 255) ∧
    permAt (buildPermutation seed) (latticeIndex x) + latticeIndex y + 1 < 512 ∧
    permAt (buildPermutation seed) (latticeIndex x + 1) + latticeIndex y + 1 < 512 ∧
    permAt (buildPermutation seed)
        (permAt (buildPermutation seed) (latticeIndex x) + latticeIndex y)
      + latticeIndex z + 1 < 512 ∧
    permAt (buildPermutation seed)
        (permAt (buildPermutation seed) (latticeIndex x) + latticeIndex y + 1)
      + latticeIndex z + 1 < 512 ∧
    permAt (buildPermutation seed)
        (permAt (buildPermutation seed) (latticeIndex x + 1) + latticeIndex y)
      + latticeIndex z + 1 < 512 ∧
    permAt (buildPermutation seed)
        (permAt (buildPermutation seed) (latticeIndex x + 1) + latticeIndex y + 1)
      + latticeIndex z + 1 < 512 := by
  have hx := latticeIndex_le_255 x
  have hy := latticeIndex_le_255 y
  have hz := latticeIndex_le_255 z
  have hp := permAt_le_255 seed
  have h1 := hp (latticeIndex x)
  have h2 := hp (latticeIndex x + 1)
  have h3 := hp (permAt (buildPermutation seed) (latticeIndex x) + latticeIndex y)
  have h4 := hp (permAt (buildPermutation seed) (latticeIndex x) + latticeIndex y + 1)
  have h5 := hp (permAt (buildPermutation seed) (latticeIndex x + 1) + latticeIndex y)
  have h6 := hp (permAt (buildPermutation seed) (latticeIndex x + 1) + latticeIndex y + 1)
  refine ⟨buildPermutation_length seed,
    ⟨shuffleFrom 255 seed (List.range 256), ?_, rfl⟩,
    hx, hy, hz, hp, by omega, by omega, by omega, by omega, by omega, by omega⟩
  rw [shuffleFrom_length]
  simp
